import Mathlib

/-!
Verification of the knx2mqtt / knxmonitor bridge.

Shallow embedding of:
  * src/knx2mqtt/knx2mqtt.py   (KNXDaemon: telegram callback, publish_message)
  * src/knx2mqtt/mqtt.py       (MQTTClient.publish: value coercion, message build)
  * src/knxmonitor/mqtt_client.py (MonitorMQTTClient: queue_message, request_group_reads)
  * src/knxmonitor/main.py     (KnxMessage schema validation, dispatch_loop,
                                read-group-addresses endpoint)
  * src/knxmonitor/project_index.py (tokenize, IndexedItem, scoring, search)

External collaborators (the xknx transcoder, the paho MQTT client, pydantic)
are modelled at their interface: a transcoder is a value type, a unit and a
decode function that may fail; a broker publish either succeeds, reports a
failure return code, or raises; pydantic validation is embedded as an
explicit checker over a JSON value type.
-/

namespace KnxBridge

/-- Log levels used by the python `logging` calls in the sources. -/
inductive LogLevel where
  | debug
  | info
  | warning
  | error
deriving DecidableEq, Repr

/-- One emitted log record: level and message text. -/
structure LogEntry where
  level : LogLevel
  msg : String
deriving DecidableEq, Repr

/-- JSON values, the payloads moved over the broker (`json.loads` output). -/
inductive JValue where
  | jnull
  | jbool (b : Bool)
  | jnum (n : Int)
  | jstr (s : String)
  | jarr (xs : List JValue)
  | jobj (fields : List (String × JValue))

/-- Decoded KNX values as handed to `publish_message`.  `knonjson r` models a
value that `json.dumps` rejects with `TypeError` and whose `str()` form is
`r` (the lossy coercion case in `MQTTClient.publish`). -/
inductive KValue where
  | kstr (s : String)
  | kint (n : Int)
  | kbool (b : Bool)
  | knonjson (r : String)
deriving DecidableEq, Repr

/-- Whether `json.dumps` accepts the value (`try: json.dumps(value)`). -/
def serializableKV : KValue → Bool
  | .knonjson _ => false
  | _ => true

/-- `str(value)` for the coercion branch. -/
def kvRepr : KValue → String
  | .kstr s => s
  | .kint n => toString n
  | .kbool b => toString b
  | .knonjson r => r

/-- The coercion in `MQTTClient.publish`: a value `json.dumps` rejects is
replaced by its `str()` form; `None` and serializable values pass through. -/
def coerceValue : Option KValue → Option KValue
  | none => none
  | some v => if serializableKV v then some v else some (.kstr (kvRepr v))

/-- The APCI service codes the daemon dispatches on
(`GroupValueWrite` / `GroupValueResponse` / `GroupValueRead` / anything else). -/
inductive APCIService where
  | GROUP_WRITE
  | GROUP_RESPONSE
  | GROUP_READ
  | OTHER
deriving DecidableEq, Repr

/-- `.name` of the enum member, used by `publish_message` for the canonical
`knx_message_type` string. -/
def APCIService.svcName : APCIService → String
  | .GROUP_WRITE => "GROUP_WRITE"
  | .GROUP_RESPONSE => "GROUP_RESPONSE"
  | .GROUP_READ => "GROUP_READ"
  | .OTHER => "OTHER"

/-- A telegram payload: APCI code plus raw payload bytes (`payload.value`). -/
structure APCIPayload where
  CODE : APCIService
  value : List Nat
deriving DecidableEq, Repr

/-- A bus telegram as seen by `__telegram_received_cb`. -/
structure Telegram where
  source_address : String
  destination_address : String
  direction : String
  payload : Option APCIPayload
deriving DecidableEq, Repr

/-- The external xknx transcoder interface: `value_type`, `unit`, and
`from_knx`, which returns a decoded value or fails
(`CouldNotParseTelegram`, modelled as `none`). -/
structure Transcoder where
  value_type : String
  unit : Option String
  fromKnx : List Nat → Option KValue

/-- `GroupAddressInfo` from knx2mqtt.py: static per-address metadata with the
resolved transcoder (`none` when `DPTBase.transcoder_by_dpt` found no codec). -/
structure GroupAddressInfo where
  address : String
  name : String
  description : String
  dpt_main : Option Nat
  dpt_sub : Option Nat
  transcoder : Option Transcoder

/-- The static state of `KNXDaemon` that `__telegram_received_cb` and
`publish_message` read: whether a project was parsed, the device-name map,
the group-address map, and whether an MQTT client was configured. -/
structure KNXDaemonState where
  knx_project : Bool
  devices : List (String × String)
  group_addresses : List (String × GroupAddressInfo)
  has_mqtt : Bool

/-- The canonical telemetry message built in `MQTTClient.publish`
(the dict serialized to JSON and published on the data topic). -/
structure CanonicalMessage where
  deviceid : String
  timestamp : String
  destination : String
  type : String
  unit : Option String
  value : Option KValue
  direction : String
  destination_name : String
  device_name : String
  knx_message_type : String
deriving DecidableEq, Repr

/-- `MQTTClient.publish`: applies the lossy value coercion and assembles the
message published on the telemetry topic (`now` stands for
`datetime.datetime.now().isoformat()`). -/
def mqtt_publish (now deviceid ty : String) (unit : Option String)
    (value : Option KValue) (destination direction destination_name device_name : String)
    (knx_message_type : String) : CanonicalMessage :=
  { deviceid := deviceid
    timestamp := now
    destination := destination
    type := ty
    unit := unit
    value := coerceValue value
    direction := direction
    destination_name := destination_name
    device_name := device_name
    knx_message_type := knx_message_type }

/-- `KNXDaemon.publish_message`: with an MQTT client, publishes only when the
message kind is write/response/read (`knx_msg_type in [...]`), using the enum
member name as the `knx_message_type` string; without an MQTT client it only
prints to the console, so nothing reaches the telemetry topic. Returns the
message published to the telemetry topic, if any. -/
def publish_message (has_mqtt : Bool) (now deviceid ty : String)
    (unit : Option String) (value : Option KValue)
    (destination direction device_name destination_name : String)
    (knx_msg_type : APCIService) : Option CanonicalMessage :=
  if has_mqtt then
    if knx_msg_type = .GROUP_WRITE ∨ knx_msg_type = .GROUP_RESPONSE
        ∨ knx_msg_type = .GROUP_READ then
      some (mqtt_publish now deviceid ty unit value destination direction
        destination_name device_name knx_msg_type.svcName)
    else
      none
  else
    none

/-- `KNXDaemon.__telegram_received_cb`.  Returns the emitted log records and
the message published to the telemetry topic, if any.  Notes kept faithful to
the source: the `return` on an unknown destination skips the trailing debug
log; decode is attempted only for write/response kinds and a
`CouldNotParseTelegram` leaves `value = None` after logging at error level;
the enum flattening line (`value.member.name if isinstance(value,
enum.EnumType) else value`) tests the value against the enum *metaclass*,
which is false for decoded value instances, so it is the identity here;
`publish_message` is still reached after a decode failure. -/
def telegram_received_cb (st : KNXDaemonState) (now : String) (t : Telegram) :
    List LogEntry × Option CanonicalMessage :=
  let debugEntry : LogEntry := ⟨.debug, "Telegram received: " ++ t.destination_address⟩
  if st.knx_project then
    match st.group_addresses.lookup t.destination_address with
    | none =>
        ([⟨.warning, "Skipping telegram for unknown destination address "
            ++ t.destination_address⟩], none)
    | some ga =>
        match t.payload, ga.transcoder with
        | some p, some tr =>
            let dec : Option KValue × List LogEntry :=
              if p.CODE = .GROUP_WRITE ∨ p.CODE = .GROUP_RESPONSE then
                match tr.fromKnx p.value with
                | some v => (some v, [])
                | none =>
                    (none, [⟨.error, "Could not parse payload for group address "
                        ++ ga.address ++ " - " ++ ga.name ++ ", " ++ ga.description⟩])
              else if p.CODE = .GROUP_READ then
                (none, [])
              else
                (none, [⟨.info, "Unhandled payload"⟩])
            let pub := publish_message st.has_mqtt now t.source_address
              tr.value_type tr.unit dec.1 t.destination_address t.direction
              ((st.devices.lookup t.source_address).getD "Unknown") ga.name p.CODE
            (dec.2 ++ [debugEntry], pub)
        | _, _ =>
            ([⟨.error, "No transcoder for group address " ++ ga.address⟩,
              debugEntry], none)
  else
    ([debugEntry], none)

/-! ## Consumer side: src/knxmonitor/mqtt_client.py -/

/-- The state of the consumer's inbound `asyncio.Queue(maxsize=...)`: its
`maxsize` and current items.  In asyncio a `maxsize` of zero means unbounded;
the queue is full exactly when `0 < maxsize ∧ maxsize ≤ items.length`. -/
structure MonitorQueue where
  maxsize : Nat
  items : List JValue

/-- `MonitorMQTTClient._queue_message`: a non-blocking `put_nowait`; on
`asyncio.QueueFull` the message is dropped and a warning is logged, the queue
is left untouched.  Returns the new queue and the emitted log records. -/
def queue_message (q : MonitorQueue) (m : JValue) : MonitorQueue × List LogEntry :=
  if 0 < q.maxsize ∧ q.maxsize ≤ q.items.length then
    (q, [⟨.warning, "Monitor queue full; dropping MQTT message"⟩])
  else
    ({ q with items := q.items ++ [m] }, [])

/-- A whole sequence of producer-callback enqueues, oldest first. -/
def enqueueAll (q : MonitorQueue) (msgs : List JValue) : MonitorQueue :=
  msgs.foldl (fun acc m => (queue_message acc m).1) q

/-- Outcome of a call to the external paho `client.publish`: a success return
code, a failure return code (`result.rc != mqtt.MQTT_ERR_SUCCESS`), or a
raised exception. -/
inductive MqttPubOutcome where
  | ok
  | errRc
  | raiseExc
deriving DecidableEq, Repr

/-- The command message published on the cmd topic:
`{"action": "read", "destinations": [...]}`. -/
structure CmdPublish where
  topic : String
  action : String
  destinations : List String
deriving DecidableEq, Repr

/-- `MonitorMQTTClient.request_group_reads`: empty input returns at once
(no publish, no log); otherwise the serialized read command is handed to
`client.publish`.  A failure return code is logged at error level and the
function still returns normally; only an exception raised by `client.publish`
itself propagates to the caller (modelled as `Except.error`).  The `Option
CmdPublish` component records the message handed to the broker client. -/
def request_group_reads (outcome : MqttPubOutcome) (cmd_topic : String)
    (group_addresses : List String) :
    Except String (List LogEntry × Option CmdPublish) :=
  if group_addresses.isEmpty then
    .ok ([], none)
  else
    match outcome with
    | .raiseExc => .error "publish raised"
    | .errRc =>
        .ok ([⟨.error, "Failed to publish read request to " ++ cmd_topic⟩],
          some ⟨cmd_topic, "read", group_addresses⟩)
    | .ok =>
        .ok ([⟨.info, "Published KNX read request"⟩],
          some ⟨cmd_topic, "read", group_addresses⟩)

/-! ## Consumer side: src/knxmonitor/main.py -/

/-- The `KnxMessage` pydantic model: three required string fields, optional
string fields (with `message_type` aliased to the wire key `type`), an `Any`
value defaulting to `None`, and — because of `extra="allow"` — the extra
fields preserved alongside. -/
structure KnxMessage where
  deviceid : String
  timestamp : String
  destination : String
  message_type : Option String
  knx_message_type : Option String
  device_name : Option String
  unit : Option String
  value : JValue
  direction : Option String
  destination_name : Option String
  extra : List (String × JValue)

/-- The keys consumed by the declared `KnxMessage` fields (both the alias
`type` and the field name `message_type` belong to the schema, since
`populate_by_name=True`); every other key is an extra field. -/
def schemaKeys : List String :=
  ["deviceid", "timestamp", "destination", "type", "message_type",
   "knx_message_type", "device_name", "unit", "value", "direction",
   "destination_name"]

/-- Required `str` field: missing key or a non-string value is a validation
error (pydantic v2 does not coerce other JSON types to `str`). -/
def getStr : Option JValue → Except String String
  | some (.jstr s) => .ok s
  | some _ => .error "Input should be a valid string"
  | none => .error "Field required"

/-- Optional `str | None = None` field: absent or `null` gives `None`, a
string gives the string, any other type is a validation error. -/
def getOptStr : Option JValue → Except String (Option String)
  | some (.jstr s) => .ok (some s)
  | some .jnull => .ok none
  | some _ => .error "Input should be a valid string"
  | none => .ok none

/-- `KnxMessage.model_validate(raw_message)`.  A non-object is rejected;
required fields must be present strings; optional fields, when present, must
be strings or null; `value : Any` accepts anything and defaults to null;
`message_type` is read from the alias key `type` first, then from the field
name (`populate_by_name=True`).  Pydantic collects all field errors into one
`ValidationError` while this embedding stops at the first; accepted inputs
and rejected inputs coincide. -/
def model_validate (raw : JValue) : Except String KnxMessage :=
  match raw with
  | .jobj fields =>
      match getStr (fields.lookup "deviceid") with
      | .error e => .error e
      | .ok deviceid =>
      match getStr (fields.lookup "timestamp") with
      | .error e => .error e
      | .ok timestamp =>
      match getStr (fields.lookup "destination") with
      | .error e => .error e
      | .ok destination =>
      match getOptStr
          (match fields.lookup "type" with
            | some v => some v
            | none => fields.lookup "message_type") with
      | .error e => .error e
      | .ok message_type =>
      match getOptStr (fields.lookup "knx_message_type") with
      | .error e => .error e
      | .ok knx_message_type =>
      match getOptStr (fields.lookup "device_name") with
      | .error e => .error e
      | .ok device_name =>
      match getOptStr (fields.lookup "unit") with
      | .error e => .error e
      | .ok unit =>
      match getOptStr (fields.lookup "direction") with
      | .error e => .error e
      | .ok direction =>
      match getOptStr (fields.lookup "destination_name") with
      | .error e => .error e
      | .ok destination_name =>
          .ok { deviceid := deviceid
                timestamp := timestamp
                destination := destination
                message_type := message_type
                knx_message_type := knx_message_type
                device_name := device_name
                unit := unit
                value := (fields.lookup "value").getD .jnull
                direction := direction
                destination_name := destination_name
                extra := fields.filter (fun kv => !(schemaKeys.contains kv.1)) }
  | _ => .error "Input should be a valid dictionary"

/-- Optional string back to JSON for `model_dump`. -/
def optStrJ : Option String → JValue
  | some s => .jstr s
  | none => .jnull

/-- `parsed.model_dump(by_alias=True)`: the declared fields in declaration
order (with `message_type` emitted under its alias `type`), followed by the
preserved extra fields. -/
def model_dump (m : KnxMessage) : List (String × JValue) :=
  [("deviceid", .jstr m.deviceid),
   ("timestamp", .jstr m.timestamp),
   ("destination", .jstr m.destination),
   ("type", optStrJ m.message_type),
   ("knx_message_type", optStrJ m.knx_message_type),
   ("device_name", optStrJ m.device_name),
   ("unit", optStrJ m.unit),
   ("value", m.value),
   ("direction", optStrJ m.direction),
   ("destination_name", optStrJ m.destination_name)] ++ m.extra

/-- `collections.deque(maxlen=C).append x`: when the deque already holds `C`
entries the oldest entry is evicted from the left. -/
def dequeAppend (C : Nat) (buf : List α) (x : α) : List α :=
  if buf.length < C then
    buf ++ [x]
  else
    (buf ++ [x]).drop (buf.length + 1 - C)

/-- One iteration of `dispatch_loop` on a dequeued raw message: validate,
on `ValidationError` log a warning and continue (buffer untouched, nothing
broadcast); on success append the dump to the history buffer and broadcast
it.  Returns (new buffer, broadcast payloads, log records). -/
def dispatchStep (C : Nat) (buf : List (List (String × JValue))) (raw : JValue) :
    List (List (String × JValue)) × List (List (String × JValue)) × List LogEntry :=
  match model_validate raw with
  | .error _ =>
      (buf, [], [⟨.warning, "Dropping message that did not validate against schema"⟩])
  | .ok m =>
      (dequeAppend C buf (model_dump m), [model_dump m], [])

/-- Running the dispatch loop over a list of dequeued messages, oldest first;
returns the final history buffer. -/
def dispatchMany (C : Nat) (buf : List (List (String × JValue)))
    (raws : List JValue) : List (List (String × JValue)) :=
  raws.foldl (fun b r => (dispatchStep C b r).1) buf

/-- The dump the dispatch loop would append for a raw message
(meaningful when the message validates). -/
def dumpOf (raw : JValue) : List (String × JValue) :=
  match model_validate raw with
  | .ok m => model_dump m
  | .error _ => []

/-- The success body of the read endpoint: `{"status": "queued", "count": n}`. -/
structure ReadResponse where
  status : String
  count : Nat
deriving DecidableEq, Repr

/-- The `POST /api/read-group-addresses` handler.  `mqtt_client` is `none`
when the runtime has no MQTT client (503).  Falsy (empty-string) destination
entries are filtered out first; if none remain the handler raises 400 before
any publish; an exception from `request_group_reads` is turned into a 500;
otherwise the response counts the filtered destinations.  The second
component records the command message handed to the broker client, if any. -/
def read_group_addresses (mqtt_client : Option MqttPubOutcome) (cmd_topic : String)
    (destinations : List String) :
    Except (Nat × String) ReadResponse × Option CmdPublish :=
  match mqtt_client with
  | none => (.error (503, "MQTT client not ready for KNX reads."), none)
  | some outcome =>
      let ds := destinations.filter (fun d => d ≠ "")
      if ds.isEmpty then
        (.error (400, "No destinations provided."), none)
      else
        match request_group_reads outcome cmd_topic ds with
        | .error _ => (.error (500, "Failed to publish read request."), none)
        | .ok (_, pub) => (.ok ⟨"queued", ds.length⟩, pub)

/-! ## Relevance index: src/knxmonitor/project_index.py -/

/-- `str.lower()` at the character level (ASCII case mapping; the project
metadata and queries the index handles are ASCII identifiers and room
codes). -/
def lowerStr (s : String) : String :=
  String.mk (s.toList.map Char.toLower)

/-- The character class of `re.split(r"[^a-zA-Z0-9]+", ...)`: a character
kept inside tokens. -/
def isTokenChar (c : Char) : Bool :=
  (decide ('a' ≤ c) && decide (c ≤ 'z'))
    || (decide ('A' ≤ c) && decide (c ≤ 'Z'))
    || (decide ('0' ≤ c) && decide (c ≤ '9'))

/-- Helper for `tokenize`: walks the character list collecting the current
run of token characters (reversed) in `acc`, emitting a token at every run
boundary and discarding empty pieces. -/
def tokensAux : List Char → List Char → List String
  | [], acc => if acc.isEmpty then [] else [String.mk acc.reverse]
  | c :: cs, acc =>
      if isTokenChar c then
        tokensAux cs (c :: acc)
      else
        (if acc.isEmpty then [] else [String.mk acc.reverse]) ++ tokensAux cs []

/-- `tokenize(text)`: lowercase, split on every run of non-alphanumeric
characters, discard empty tokens. -/
def tokenize (text : String) : List String :=
  tokensAux (lowerStr text).toList []

/-- `IndexedItem`: identifier, name, description and the token set (a python
`set`, carried here as the deduplicated token list). -/
structure IndexedItem where
  identifier : String
  name : String
  description : String
  tokens : List String
deriving DecidableEq, Repr

/-- `IndexedItem.searchable_text`: `f"{name} {description}".lower()`. -/
def searchable_text (it : IndexedItem) : String :=
  lowerStr (it.name ++ " " ++ it.description)

/-- `ProjectIndex._index_item`: tokens over `f"{identifier} {name}
{description}"`. -/
def index_item (identifier name description : String) : IndexedItem :=
  { identifier := identifier
    name := name
    description := description
    tokens := (tokenize (identifier ++ " " ++ name ++ " " ++ description)).dedup }

/-- `ProjectIndex.load` over already-parsed project metadata: each entry is
(identifier, name, description) in project iteration order. -/
def loadItems (metadata : List (String × String × String)) : List IndexedItem :=
  metadata.map (fun e => index_item e.1 e.2.1 e.2.2)

/-- Python's substring test `token in text`. -/
def substrOf (token text : String) : Bool :=
  decide (token.toList <:+: text.toList)

/-- The per-item score of `_score_items`: for each query token, 2 points if
it is a substring of the searchable text, else 1 point if it is in the token
set; plus `len(boost_terms.intersection(item.tokens))`.  `query_tokens` and
`boost_terms` are set enumerations (duplicate-free lists). -/
def scoreItem (it : IndexedItem) (query_tokens boost_terms : List String) : Nat :=
  query_tokens.foldl
    (fun s t =>
      if substrOf t (searchable_text it) then s + 2
      else if t ∈ it.tokens then s + 1
      else s) 0
  + (boost_terms.filter (fun t => t ∈ it.tokens)).length

/-- Stable insertion for the descending sort: the new pair goes after every
already-placed pair of score ≥ its own, before the first strictly smaller
one — exactly the tie behaviour of python's stable
`sort(key=..., reverse=True)`. -/
def insertDesc (p : Nat × IndexedItem) :
    List (Nat × IndexedItem) → List (Nat × IndexedItem)
  | [] => [p]
  | q :: rest => if q.1 < p.1 then p :: q :: rest else q :: insertDesc p rest

/-- `scored.sort(key=lambda pair: pair[0], reverse=True)` as a stable
descending insertion sort. -/
def sortScoredDesc (l : List (Nat × IndexedItem)) : List (Nat × IndexedItem) :=
  l.foldl (fun acc p => insertDesc p acc) []

/-- `ProjectIndex._score_items`: score every item, keep the strictly positive
scores (in discovery order), stable-sort by descending score. -/
def score_items (items : List IndexedItem) (query_tokens boost_terms : List String) :
    List (Nat × IndexedItem) :=
  sortScoredDesc
    ((items.map (fun it => (scoreItem it query_tokens boost_terms, it))).filter
      (fun p => 0 < p.1))

/-- The room-like token shape of `re.match(r"^[a-z]?\d{2,4}[a-z]?$", t)`:
an optional lowercase letter, 2 to 4 digits, an optional lowercase letter. -/
def isRoomLike (t : String) : Bool :=
  let cs := t.toList
  let rest :=
    match cs with
    | c :: tl => if decide ('a' ≤ c) && decide (c ≤ 'z') then tl else cs
    | [] => []
  let d := (rest.takeWhile (fun c => decide ('0' ≤ c) && decide (c ≤ '9'))).length
  let after := rest.drop d
  decide (2 ≤ d) && decide (d ≤ 4) &&
    (match after with
      | [] => true
      | [c] => decide ('a' ≤ c) && decide (c ≤ 'z')
      | _ => false)

/-- `NLResult`. -/
structure NLResult where
  devices : List String
  destinations : List String
  explanation : String
deriving DecidableEq, Repr

/-- `ProjectIndex.search(query, limit)`.  The python code iterates
`set(tokenize(query))` whose enumeration order is unspecified run to run;
`enum` is that enumeration, so a run of `search` is `searchWith` at some
`enum` with `enum.Perm (tokenize query).dedup`.  The room-like boost set is
derived from the same enumeration. -/
def searchWith (devices gas : List IndexedItem) (query : String)
    (enum : List String) (limit : Nat) : NLResult :=
  if enum.isEmpty then
    ⟨[], [], "No tokens found in query."⟩
  else
    let room_like := enum.filter isRoomLike
    let device_matches := (score_items devices enum room_like).take limit
    let ga_matches := (score_items gas enum room_like).take limit
    let devs := device_matches.map (fun m => m.2.identifier)
    let dests := ga_matches.map (fun m => m.2.identifier)
    ⟨devs, dests,
      "Query: " ++ query ++ ". Matched devices: "
        ++ (if devs.isEmpty then "none" else String.intercalate ", " devs)
        ++ ". Destinations: "
        ++ (if dests.isEmpty then "none" else String.intercalate ", " dests)⟩

/-! ## Theorems -/

/-- C7: for every bus event whose destination address has no `AddressInfo`
entry, the Decode Gate rejects the event: the callback emits exactly one log
record, at warning level, naming the unknown destination, and publishes no
`CanonicalMessage` (the `return` even skips the trailing debug log). -/
theorem C7_unknown_destination (st : KNXDaemonState) (now : String) (t : Telegram)
    (hproj : st.knx_project = true)
    (hga : st.group_addresses.lookup t.destination_address = none) :
    telegram_received_cb st now t =
      ([⟨.warning, "Skipping telegram for unknown destination address "
          ++ t.destination_address⟩], none) := by
  simp [telegram_received_cb, hproj, hga]

/-- C7 witness: a concrete daemon state with an empty address map and a
telegram to an unregistered destination. -/
theorem C7_witness :
    telegram_received_cb ⟨true, [], [], true⟩ "T"
        ⟨"1.1.1", "9/9/9", "incoming", some ⟨.GROUP_WRITE, [1]⟩⟩ =
      ([⟨.warning, "Skipping telegram for unknown destination address 9/9/9"⟩],
        none) :=
  C7_unknown_destination ⟨true, [], [], true⟩ "T"
    ⟨"1.1.1", "9/9/9", "incoming", some ⟨.GROUP_WRITE, [1]⟩⟩ rfl rfl

/-- C6: every bus event of read kind that results in a published
`CanonicalMessage` carries a null value: the read branch of the callback
skips decode and always hands `None` to `publish_message`, and the value
coercion maps `None` to `None` — in every other configuration (no project,
unknown destination, no codec, no MQTT client) nothing is published at all,
so the claim holds regardless of codec availability. -/
theorem C6_read_value_null (st : KNXDaemonState) (now : String) (t : Telegram)
    (p : APCIPayload) (m : CanonicalMessage)
    (hp : t.payload = some p) (hr : p.CODE = APCIService.GROUP_READ)
    (hm : (telegram_received_cb st now t).2 = some m) :
    m.value = none := by
  cases hproj : st.knx_project with
  | false => simp [telegram_received_cb, hproj] at hm
  | true =>
      cases hga : st.group_addresses.lookup t.destination_address with
      | none => simp [telegram_received_cb, hproj, hga] at hm
      | some ga =>
          cases htr : ga.transcoder with
          | none => simp [telegram_received_cb, hproj, hga, hp, htr] at hm
          | some tr =>
              cases hmq : st.has_mqtt with
              | false =>
                  simp [telegram_received_cb, hproj, hga, hp, htr, hmq,
                    publish_message] at hm
              | true =>
                  simp [telegram_received_cb, hproj, hga, hp, htr, hr, hmq,
                    publish_message, mqtt_publish, coerceValue] at hm
                  simp [← hm]

/-- C6 witness: a concrete read telegram for an address with a working codec
is published with a null value. -/
theorem C6_witness :
    (telegram_received_cb
        ⟨true, [], [("1/2/3", ⟨"1/2/3", "ga", "", some 1, some 1,
          some ⟨"1byte", none, fun _ => some (.kint 7)⟩⟩)], true⟩ "T"
        ⟨"1.1.1", "1/2/3", "incoming", some ⟨.GROUP_READ, []⟩⟩).2 =
      some { deviceid := "1.1.1", timestamp := "T", destination := "1/2/3",
             type := "1byte", unit := none, value := none,
             direction := "incoming", destination_name := "ga",
             device_name := "Unknown", knx_message_type := "GROUP_READ" } ∧
    ({ deviceid := "1.1.1", timestamp := "T", destination := "1/2/3",
       type := "1byte", unit := none, value := none, direction := "incoming",
       destination_name := "ga", device_name := "Unknown",
       knx_message_type := "GROUP_READ" } : CanonicalMessage).value = none :=
  ⟨rfl,
    C6_read_value_null
      ⟨true, [], [("1/2/3", ⟨"1/2/3", "ga", "", some 1, some 1,
        some ⟨"1byte", none, fun _ => some (.kint 7)⟩⟩)], true⟩ "T"
      ⟨"1.1.1", "1/2/3", "incoming", some ⟨.GROUP_READ, []⟩⟩
      ⟨.GROUP_READ, []⟩ _ rfl rfl rfl⟩

/-- A transcoder whose decode always fails (`from_knx` raising
`CouldNotParseTelegram` on every payload). -/
def trFailC1 : Transcoder := ⟨"1byte", none, fun _ => none⟩

/-- A known group address resolved to the failing transcoder. -/
def gaC1 : GroupAddressInfo := ⟨"1/2/3", "Kitchen Light", "", some 1, some 1, some trFailC1⟩

/-- A daemon state with a parsed project, that one known address, and an
MQTT client configured. -/
def stC1 : KNXDaemonState := ⟨true, [("1.1.1", "Switch")], [("1/2/3", gaC1)], true⟩

/-- A write telegram to the known address whose payload fails to decode. -/
def tgC1 : Telegram := ⟨"1.1.1", "1/2/3", "incoming", some ⟨.GROUP_WRITE, [255]⟩⟩

/-- C1 counterexample: a write event for a known address with a resolved
codec whose decode fails.  The failure is logged, but the event is NOT
dropped — `__telegram_received_cb` falls through to `publish_message` after
the `except CouldNotParseTelegram` handler, and a `CanonicalMessage` with a
null value IS published to the telemetry topic. -/
theorem C1_counterexample :
    trFailC1.fromKnx [255] = none ∧
    (telegram_received_cb stC1 "T" tgC1).2 =
      some { deviceid := "1.1.1", timestamp := "T", destination := "1/2/3",
             type := "1byte", unit := none, value := none,
             direction := "incoming", destination_name := "Kitchen Light",
             device_name := "Switch", knx_message_type := "GROUP_WRITE" } :=
  ⟨rfl, rfl⟩

/-- C1 amended: for every write event whose destination has a known
`AddressInfo` with a resolved codec, if the codec's decode of the raw payload
fails, the failure is logged at error level, but the event is still
published: a `CanonicalMessage` with a null value reaches the telemetry
topic. -/
theorem C1_decode_failure_still_published (st : KNXDaemonState) (now : String)
    (t : Telegram) (ga : GroupAddressInfo) (tr : Transcoder) (p : APCIPayload)
    (hproj : st.knx_project = true) (hmq : st.has_mqtt = true)
    (hga : st.group_addresses.lookup t.destination_address = some ga)
    (htr : ga.transcoder = some tr)
    (hp : t.payload = some p) (hw : p.CODE = APCIService.GROUP_WRITE)
    (hdec : tr.fromKnx p.value = none) :
    (∃ e ∈ (telegram_received_cb st now t).1, e.level = .error) ∧
    (telegram_received_cb st now t).2 =
      some (mqtt_publish now t.source_address tr.value_type tr.unit none
        t.destination_address t.direction ga.name
        ((st.devices.lookup t.source_address).getD "Unknown") "GROUP_WRITE") ∧
    ∀ m, (telegram_received_cb st now t).2 = some m → m.value = none := by
  have hcb : telegram_received_cb st now t =
      ([⟨.error, "Could not parse payload for group address "
          ++ ga.address ++ " - " ++ ga.name ++ ", " ++ ga.description⟩,
        ⟨.debug, "Telegram received: " ++ t.destination_address⟩],
        some (mqtt_publish now t.source_address tr.value_type tr.unit none
          t.destination_address t.direction ga.name
          ((st.devices.lookup t.source_address).getD "Unknown") "GROUP_WRITE")) := by
    simp [telegram_received_cb, hproj, hga, hp, htr, hw, hdec, publish_message,
      APCIService.svcName, hmq]
  refine ⟨⟨⟨.error, "Could not parse payload for group address "
      ++ ga.address ++ " - " ++ ga.name ++ ", " ++ ga.description⟩, ?_, rfl⟩, ?_, ?_⟩
  · rw [hcb]; exact List.mem_cons_self _ _
  · rw [hcb]
  · intro m hm
    rw [hcb] at hm
    simp only [Option.some.injEq] at hm
    simp [← hm, mqtt_publish, coerceValue]

/-- C1 witness for the amended theorem, at the counterexample input. -/
theorem C1_witness :
    (∃ e ∈ (telegram_received_cb stC1 "T" tgC1).1, e.level = .error) ∧
    (telegram_received_cb stC1 "T" tgC1).2 =
      some (mqtt_publish "T" tgC1.source_address trFailC1.value_type trFailC1.unit none
        tgC1.destination_address tgC1.direction gaC1.name
        ((stC1.devices.lookup tgC1.source_address).getD "Unknown") "GROUP_WRITE") ∧
    ∀ m, (telegram_received_cb stC1 "T" tgC1).2 = some m → m.value = none :=
  C1_decode_failure_still_published stC1 "T" tgC1 gaC1 trFailC1
    ⟨.GROUP_WRITE, [255]⟩ rfl rfl rfl rfl rfl rfl rfl

/-- C2 counterexample: a non-empty read request whose publish fails with a
failure return code.  The failure is logged at error level, but
`request_group_reads` returns normally (`.ok`): nothing is surfaced to the
caller — the claim's "surfaced as an error to the caller" is false for this
failure mode. -/
theorem C2_counterexample :
    request_group_reads .errRc "knx/cmd" ["1/2/3"] =
      .ok ([⟨.error, "Failed to publish read request to knx/cmd"⟩],
        some ⟨"knx/cmd", "read", ["1/2/3"]⟩) :=
  rfl

/-- C2 amended: `request_group_reads` with empty input is a no-op (nothing
published, nothing logged, no error); with non-empty input, a publish failure
reported through the client's return code is logged at error level but the
call still returns normally — it is not surfaced to the caller; only an
exception raised by the underlying publish call itself propagates. -/
theorem C2_request_group_reads (outcome : MqttPubOutcome) (topic : String)
    (addrs : List String) :
    (addrs = [] → request_group_reads outcome topic addrs = .ok ([], none)) ∧
    (addrs ≠ [] → outcome = .errRc →
      request_group_reads outcome topic addrs =
        .ok ([⟨.error, "Failed to publish read request to " ++ topic⟩],
          some ⟨topic, "read", addrs⟩)) ∧
    (addrs ≠ [] → outcome = .raiseExc →
      request_group_reads outcome topic addrs = .error "publish raised") := by
  refine ⟨fun he => ?_, fun hne ho => ?_, fun hne ho => ?_⟩
  · simp [request_group_reads, he]
  · simp [request_group_reads, hne, ho]
  · simp [request_group_reads, hne, ho]

/-- C2 witness for the amended theorem: the empty no-op, the logged-only
return-code failure, and the propagating exception, each at a concrete
input. -/
theorem C2_witness :
    request_group_reads .errRc "knx/cmd" [] = .ok ([], none) ∧
    request_group_reads .errRc "knx/cmd" ["1/2/3"] =
      .ok ([⟨.error, "Failed to publish read request to knx/cmd"⟩],
        some ⟨"knx/cmd", "read", ["1/2/3"]⟩) ∧
    request_group_reads .raiseExc "knx/cmd" ["1/2/3"] = .error "publish raised" :=
  ⟨(C2_request_group_reads .errRc "knx/cmd" []).1 rfl,
    (C2_request_group_reads .errRc "knx/cmd" ["1/2/3"]).2.1 (by decide) rfl,
    (C2_request_group_reads .raiseExc "knx/cmd" ["1/2/3"]).2.2 (by decide) rfl⟩

/-- Enqueueing a message sequence into a bounded queue keeps the existing
items and appends exactly the first messages that fit. -/
theorem enqueueAll_items (N : Nat) (h0 : 0 < N) :
    ∀ (msgs : List JValue) (q : MonitorQueue), q.maxsize = N →
      q.items.length ≤ N →
      (enqueueAll q msgs).items = q.items ++ msgs.take (N - q.items.length) := by
  intro msgs
  induction msgs with
  | nil => intro q _ _; simp [enqueueAll]
  | cons m ms ih =>
      intro q hs hle
      by_cases hfull : 0 < q.maxsize ∧ q.maxsize ≤ q.items.length
      · have hlen : q.items.length = N := by omega
        have hstep : (queue_message q m).1 = q := by
          simp [queue_message, hfull]
        have : enqueueAll q (m :: ms) = enqueueAll q ms := by
          simp [enqueueAll, hstep]
        rw [this, ih q hs hle, hlen]
        simp
      · have hlt : q.items.length < N := by
          rcases Nat.lt_or_ge q.items.length N with h | h
          · exact h
          · exact absurd ⟨by omega, by omega⟩ hfull
        have hstep : (queue_message q m).1 = { q with items := q.items ++ [m] } := by
          simp [queue_message, hfull]
        have heq : enqueueAll q (m :: ms) =
            enqueueAll { q with items := q.items ++ [m] } ms := by
          simp [enqueueAll, hstep]
        rw [heq, ih { q with items := q.items ++ [m] } hs (by simp; omega)]
        have harith : N - q.items.length = (N - (q.items.length + 1)) + 1 := by omega
        simp [harith, List.take_succ_cons]

/-- C3: the producer-side enqueue is the non-blocking `put_nowait` (a total
state transition, never a wait): starting from an empty queue of capacity N,
enqueueing any message sequence retains exactly the first N messages, in
their original order; and whenever the queue already holds N messages, the
next enqueue drops the message with a single warning log and leaves the
queued messages untouched. -/
theorem C3_queue_backpressure (N : Nat) (msgs : List JValue) (h0 : 0 < N) :
    (enqueueAll ⟨N, []⟩ msgs).items = msgs.take N ∧
    (∀ (q : MonitorQueue) (m : JValue), q.maxsize = N → q.items.length = N →
      queue_message q m =
        (q, [⟨.warning, "Monitor queue full; dropping MQTT message"⟩])) := by
  constructor
  · have := enqueueAll_items N h0 msgs ⟨N, []⟩ rfl (by simp)
    simpa using this
  · intro q m hs hlen
    simp [queue_message, hs, hlen, h0]

/-- C3 witness: capacity 2 and three enqueued messages — the first two are
kept in order, and an enqueue on the full queue drops with one warning. -/
theorem C3_witness :
    (enqueueAll ⟨2, []⟩ [.jnum 1, .jnum 2, .jnum 3]).items =
      ([.jnum 1, .jnum 2, .jnum 3] : List JValue).take 2 ∧
    (∀ (q : MonitorQueue) (m : JValue), q.maxsize = 2 → q.items.length = 2 →
      queue_message q m =
        (q, [⟨.warning, "Monitor queue full; dropping MQTT message"⟩])) :=
  C3_queue_backpressure 2 [.jnum 1, .jnum 2, .jnum 3] (by decide)

/-- C10: with a command channel available, the read endpoint filters out
empty-string destinations before publishing; if every submitted destination
is empty it returns 400 without handing anything to the broker client; any
command actually published carries exactly the non-empty destinations; and a
success response counts the non-empty destinations, which is at most the
number submitted. -/
theorem C10_read_endpoint (outcome : MqttPubOutcome) (topic : String)
    (dests : List String) :
    ((∀ d ∈ dests, d = "") →
      read_group_addresses (some outcome) topic dests =
        (.error (400, "No destinations provided."), none)) ∧
    (∀ pub, (read_group_addresses (some outcome) topic dests).2 = some pub →
      pub.destinations = dests.filter (fun d => d ≠ "")) ∧
    (∀ resp pub, read_group_addresses (some outcome) topic dests = (.ok resp, pub) →
      resp.count = (dests.filter (fun d => d ≠ "")).length ∧
        resp.count ≤ dests.length) := by
  have hchar : read_group_addresses (some outcome) topic dests =
      if (dests.filter (fun d => d ≠ "")).isEmpty then
        (.error (400, "No destinations provided."), none)
      else
        match outcome with
        | .raiseExc => (.error (500, "Failed to publish read request."), none)
        | _ => (.ok ⟨"queued", (dests.filter (fun d => d ≠ "")).length⟩,
            some ⟨topic, "read", dests.filter (fun d => d ≠ "")⟩) := by
    simp only [read_group_addresses]
    cases hds : dests.filter (fun d => d ≠ "") with
    | nil => simp
    | cons a as => cases outcome <;> simp [request_group_reads]
  refine ⟨fun hall => ?_, ?_, ?_⟩
  · have hnil : dests.filter (fun d => d ≠ "") = [] :=
      List.filter_eq_nil_iff.mpr (fun d hd => by simp [hall d hd])
    rw [hchar, hnil]
    simp
  · intro pub hpub
    rw [hchar] at hpub
    cases hds : dests.filter (fun d => d ≠ "") with
    | nil => rw [hds] at hpub; simp at hpub
    | cons a as =>
        rw [hds] at hpub
        cases outcome <;> simp at hpub <;> simp [← hpub]
  · intro resp pub hresp
    have hle : (dests.filter (fun d => d ≠ "")).length ≤ dests.length :=
      List.length_filter_le _ _
    rw [hchar] at hresp
    cases hds : dests.filter (fun d => d ≠ "") with
    | nil => rw [hds] at hresp; simp [Prod.ext_iff] at hresp
    | cons a as =>
        rw [hds] at hresp hle
        cases outcome <;> simp [Prod.ext_iff] at hresp
        case errRc =>
          obtain ⟨h1, -⟩ := hresp
          refine ⟨by simp [← h1], ?_⟩
          simp [← h1]
          simpa using hle
        case ok =>
          obtain ⟨h1, -⟩ := hresp
          refine ⟨by simp [← h1], ?_⟩
          simp [← h1]
          simpa using hle

/-- C10 witness: two empty destinations give a 400 with no publish; a mixed
list publishes only the non-empty entry and reports count 1 of 2
submitted. -/
theorem C10_witness :
    read_group_addresses (some .ok) "knx/cmd" ["", ""] =
      (.error (400, "No destinations provided."), none) ∧
    (∀ pub, (read_group_addresses (some .ok) "knx/cmd" ["", "1/2/3"]).2 = some pub →
      pub.destinations = (["", "1/2/3"] : List String).filter (fun d => d ≠ "")) ∧
    (∀ resp pub,
      read_group_addresses (some .ok) "knx/cmd" ["", "1/2/3"] = (.ok resp, pub) →
      resp.count = ((["", "1/2/3"] : List String).filter (fun d => d ≠ "")).length ∧
        resp.count ≤ (["", "1/2/3"] : List String).length) :=
  ⟨(C10_read_endpoint .ok "knx/cmd" ["", ""]).1 (by decide),
    (C10_read_endpoint .ok "knx/cmd" ["", "1/2/3"]).2.1,
    (C10_read_endpoint .ok "knx/cmd" ["", "1/2/3"]).2.2⟩

/-- A bounded-deque append on a buffer within capacity is a drop of the
extended buffer. -/
theorem dequeAppend_formula (C : Nat) (buf : List α) (x : α) (h : buf.length ≤ C) :
    dequeAppend C buf x = (buf ++ [x]).drop (buf.length + 1 - C) := by
  unfold dequeAppend
  by_cases hlt : buf.length < C
  · rw [if_pos hlt]
    have h0 : buf.length + 1 - C = 0 := by omega
    rw [h0, List.drop_zero]
  · rw [if_neg hlt]

/-- Folding bounded-deque appends over a message list keeps exactly the
newest `C` entries of the concatenation. -/
theorem foldl_dequeAppend (C : Nat) :
    ∀ (xs : List α) (buf : List α), buf.length ≤ C →
      xs.foldl (dequeAppend C) buf = (buf ++ xs).drop (buf.length + xs.length - C) := by
  intro xs
  induction xs with
  | nil =>
      intro buf h
      simp [Nat.sub_eq_zero_of_le h]
  | cons x xs ih =>
      intro buf h
      have hb1 : dequeAppend C buf x = (buf ++ [x]).drop (buf.length + 1 - C) :=
        dequeAppend_formula C buf x h
      have hb1len : (dequeAppend C buf x).length =
          buf.length + 1 - (buf.length + 1 - C) := by
        rw [hb1]
        simp
      have hb1le : (dequeAppend C buf x).length ≤ C := by omega
      have hstep : (x :: xs).foldl (dequeAppend C) buf =
          xs.foldl (dequeAppend C) (dequeAppend C buf x) := rfl
      rw [hstep, ih _ hb1le, hb1len, hb1]
      have hle1 : buf.length + 1 - C ≤ (buf ++ [x]).length := by
        simp only [List.length_append, List.length_cons, List.length_nil]
        omega
      rw [← List.drop_append_of_le_length hle1, List.drop_drop]
      have harith : buf.length + 1 - C +
          (buf.length + 1 - (buf.length + 1 - C) + xs.length - C) =
          buf.length + (x :: xs).length - C := by
        simp only [List.length_cons]
        omega
      rw [harith]
      congr 1
      simp

/-- On all-valid input, the dispatch loop is exactly a fold of deque appends
of the message dumps. -/
theorem dispatchMany_valid (C : Nat) :
    ∀ (raws : List JValue) (buf : List (List (String × JValue))),
      (∀ r ∈ raws, ∃ m, model_validate r = .ok m) →
      dispatchMany C buf raws = (raws.map dumpOf).foldl (dequeAppend C) buf := by
  intro raws
  induction raws with
  | nil => intro buf _; rfl
  | cons r rs ih =>
      intro buf hv
      obtain ⟨m, hm⟩ := hv r (List.mem_cons_self _ _)
      have hrest := ih (dequeAppend C buf (dumpOf r))
        (fun x hx => hv x (List.mem_cons_of_mem _ hx))
      simp only [dispatchMany, List.foldl_cons, List.map_cons] at hrest ⊢
      have hone : (dispatchStep C buf r).1 = dequeAppend C buf (dumpOf r) := by
        simp [dispatchStep, dumpOf, hm]
      rw [hone]
      exact hrest

/-- C4: dispatching K schema-valid messages through the dispatch loop with
history capacity C, K > C, leaves the buffer holding exactly the dumps of the
last C dispatched messages, in arrival order. -/
theorem C4_history_buffer (C : Nat) (raws : List JValue)
    (hv : ∀ r ∈ raws, ∃ m, model_validate r = .ok m)
    (hk : C < raws.length) :
    dispatchMany C [] raws = (raws.map dumpOf).drop (raws.length - C) ∧
    (dispatchMany C [] raws).length = C := by
  have h1 : dispatchMany C [] raws = (raws.map dumpOf).foldl (dequeAppend C) [] :=
    dispatchMany_valid C raws [] hv
  have h2 := foldl_dequeAppend C (raws.map dumpOf) [] (by simp)
  simp only [List.nil_append, List.length_nil, Nat.zero_add, List.length_map] at h2
  constructor
  · rw [h1, h2]
  · rw [h1, h2]
    simp
    omega

/-- A valid raw message for the C4 witness. -/
def rawMsgW (n : Int) : JValue :=
  .jobj [("deviceid", .jstr "1.1.1"), ("timestamp", .jstr "T"),
         ("destination", .jstr "1/2/3"), ("value", .jnum n)]

/-- C4 witness: three valid messages through a capacity-2 buffer leave the
dumps of the last two, in order. -/
theorem C4_witness :
    dispatchMany 2 [] [rawMsgW 1, rawMsgW 2, rawMsgW 3] =
      ([rawMsgW 1, rawMsgW 2, rawMsgW 3].map dumpOf).drop
        ([rawMsgW 1, rawMsgW 2, rawMsgW 3].length - 2) ∧
    (dispatchMany 2 [] [rawMsgW 1, rawMsgW 2, rawMsgW 3]).length = 2 :=
  C4_history_buffer 2 [rawMsgW 1, rawMsgW 2, rawMsgW 3]
    (by
      intro r hr
      simp only [List.mem_cons, List.not_mem_nil, or_false] at hr
      rcases hr with rfl | rfl | rfl <;> exact ⟨_, rfl⟩)
    (by simp)

/-- Inversion of a successful validation: the parsed message's extra fields
are exactly the input fields whose keys lie outside the schema. -/
theorem model_validate_extra (fields : List (String × JValue)) (m : KnxMessage)
    (h : model_validate (.jobj fields) = .ok m) :
    m.extra = fields.filter (fun kv => !(schemaKeys.contains kv.1)) := by
  simp only [model_validate] at h
  cases h1 : getStr (fields.lookup "deviceid") with
  | error e => rw [h1] at h; exact absurd h (by simp)
  | ok v1 =>
  rw [h1] at h
  cases h2 : getStr (fields.lookup "timestamp") with
  | error e => rw [h2] at h; exact absurd h (by simp)
  | ok v2 =>
  rw [h2] at h
  cases h3 : getStr (fields.lookup "destination") with
  | error e => rw [h3] at h; exact absurd h (by simp)
  | ok v3 =>
  rw [h3] at h
  cases h4 : getOptStr
      (match fields.lookup "type" with
        | some v => some v
        | none => fields.lookup "message_type") with
  | error e => rw [h4] at h; exact absurd h (by simp)
  | ok v4 =>
  rw [h4] at h
  cases h5 : getOptStr (fields.lookup "knx_message_type") with
  | error e => rw [h5] at h; exact absurd h (by simp)
  | ok v5 =>
  rw [h5] at h
  cases h6 : getOptStr (fields.lookup "device_name") with
  | error e => rw [h6] at h; exact absurd h (by simp)
  | ok v6 =>
  rw [h6] at h
  cases h7 : getOptStr (fields.lookup "unit") with
  | error e => rw [h7] at h; exact absurd h (by simp)
  | ok v7 =>
  rw [h7] at h
  cases h8 : getOptStr (fields.lookup "direction") with
  | error e => rw [h8] at h; exact absurd h (by simp)
  | ok v8 =>
  rw [h8] at h
  cases h9 : getOptStr (fields.lookup "destination_name") with
  | error e => rw [h9] at h; exact absurd h (by simp)
  | ok v9 =>
  rw [h9] at h
  simp only [Except.ok.injEq] at h
  rw [← h]

/-- C8: the dispatch loop's schema gate.  A message that validates is
appended (dumped) to the buffer and broadcast, with every extra field beyond
the schema preserved in that payload; a message that fails validation is
logged at warning level and dropped — buffer untouched, nothing broadcast;
and a message missing any of the required fields does fail validation. -/
theorem C8_schema_gate (C : Nat) (buf : List (List (String × JValue)))
    (fields : List (String × JValue)) :
    (∀ m, model_validate (.jobj fields) = .ok m →
      dispatchStep C buf (.jobj fields) =
        (dequeAppend C buf (model_dump m), [model_dump m], []) ∧
      ∀ kv ∈ fields, kv.1 ∉ schemaKeys → kv ∈ model_dump m) ∧
    (∀ e, model_validate (.jobj fields) = .error e →
      dispatchStep C buf (.jobj fields) =
        (buf, [],
          [⟨.warning, "Dropping message that did not validate against schema"⟩])) ∧
    ((fields.lookup "deviceid" = none ∨ fields.lookup "timestamp" = none ∨
        fields.lookup "destination" = none) →
      ∃ e, model_validate (.jobj fields) = .error e) ∧
    (((∃ v, fields.lookup "deviceid" = some v ∧ ∀ s, v ≠ JValue.jstr s) ∨
      (∃ v, fields.lookup "timestamp" = some v ∧ ∀ s, v ≠ JValue.jstr s) ∨
      (∃ v, fields.lookup "destination" = some v ∧ ∀ s, v ≠ JValue.jstr s)) →
      ∃ e, model_validate (.jobj fields) = .error e) := by
  have hbad : ∀ v : JValue, (∀ s, v ≠ JValue.jstr s) →
      getStr (some v) = .error "Input should be a valid string" := by
    intro v hv
    cases v with
    | jstr s => exact absurd rfl (hv s)
    | jnull => rfl
    | jbool b => rfl
    | jnum n => rfl
    | jarr xs => rfl
    | jobj fs => rfl
  refine ⟨fun m hm => ⟨?_, fun kv hkv hnot => ?_⟩, fun e he => ?_, fun hmiss => ?_,
    fun hwrong => ?_⟩
  · simp [dispatchStep, hm]
  · have hextra : kv ∈ m.extra := by
      rw [model_validate_extra fields m hm]
      rw [List.mem_filter]
      refine ⟨hkv, ?_⟩
      simp only [Bool.not_eq_true']
      rw [← Bool.not_eq_true]
      intro hc
      exact hnot (by simpa using hc)
    unfold model_dump
    exact List.mem_append_right _ hextra
  · simp [dispatchStep, he]
  · rcases hmiss with hmiss | hmiss | hmiss
    · exact ⟨"Field required", by simp only [model_validate, hmiss] <;> rfl⟩
    · cases h1 : getStr (fields.lookup "deviceid") with
      | error e => exact ⟨e, by simp only [model_validate, h1] <;> rfl⟩
      | ok v =>
          exact ⟨"Field required", by simp only [model_validate, h1, hmiss] <;> rfl⟩
    · cases h1 : getStr (fields.lookup "deviceid") with
      | error e => exact ⟨e, by simp only [model_validate, h1] <;> rfl⟩
      | ok v =>
          cases h2 : getStr (fields.lookup "timestamp") with
          | error e => exact ⟨e, by simp only [model_validate, h1, h2] <;> rfl⟩
          | ok v2 =>
              exact ⟨"Field required",
                by simp only [model_validate, h1, h2, hmiss] <;> rfl⟩
  · rcases hwrong with ⟨v, hv, hvs⟩ | ⟨v, hv, hvs⟩ | ⟨v, hv, hvs⟩
    · exact ⟨"Input should be a valid string",
        by simp only [model_validate, hv, hbad v hvs] <;> rfl⟩
    · cases h1 : getStr (fields.lookup "deviceid") with
      | error e => exact ⟨e, by simp only [model_validate, h1] <;> rfl⟩
      | ok w =>
          exact ⟨"Input should be a valid string",
            by simp only [model_validate, h1, hv, hbad v hvs] <;> rfl⟩
    · cases h1 : getStr (fields.lookup "deviceid") with
      | error e => exact ⟨e, by simp only [model_validate, h1] <;> rfl⟩
      | ok w =>
          cases h2 : getStr (fields.lookup "timestamp") with
          | error e => exact ⟨e, by simp only [model_validate, h1, h2] <;> rfl⟩
          | ok w2 =>
              exact ⟨"Input should be a valid string",
                by simp only [model_validate, h1, h2, hv, hbad v hvs] <;> rfl⟩

/-- Valid raw fields with one extra field beyond the schema, for the C8
witness. -/
def fieldsOkC8 : List (String × JValue) :=
  [("deviceid", .jstr "1.1.1"), ("timestamp", .jstr "T"),
   ("destination", .jstr "1/2/3"), ("room", .jstr "f200")]

/-- The message `fieldsOkC8` validates to. -/
def msgOkC8 : KnxMessage :=
  { deviceid := "1.1.1", timestamp := "T", destination := "1/2/3",
    message_type := none, knx_message_type := none, device_name := none,
    unit := none, value := .jnull, direction := none, destination_name := none,
    extra := [("room", .jstr "f200")] }

/-- Raw fields whose `timestamp` has the wrong type, for the C8 witness. -/
def fieldsBadC8 : List (String × JValue) :=
  [("deviceid", .jstr "1.1.1"), ("timestamp", .jnum 1),
   ("destination", .jstr "1/2/3")]

/-- C8 witness: the valid message is appended and broadcast with its extra
field preserved; the wrong-typed message is dropped with a warning; a message
missing `deviceid` fails validation; and a wrong-typed `timestamp` fails
validation. -/
theorem C8_witness :
    (dispatchStep 3 [] (.jobj fieldsOkC8) =
      (dequeAppend 3 [] (model_dump msgOkC8), [model_dump msgOkC8], []) ∧
      ("room", JValue.jstr "f200") ∈ model_dump msgOkC8) ∧
    dispatchStep 3 [] (.jobj fieldsBadC8) =
      ([], [],
        [⟨.warning, "Dropping message that did not validate against schema"⟩]) ∧
    (∃ e, model_validate (.jobj [("timestamp", JValue.jstr "T")]) = .error e) ∧
    (∃ e, model_validate (.jobj fieldsBadC8) = .error e) :=
  ⟨⟨((C8_schema_gate 3 [] fieldsOkC8).1 msgOkC8 rfl).1,
    ((C8_schema_gate 3 [] fieldsOkC8).1 msgOkC8 rfl).2
      ("room", JValue.jstr "f200")
      (List.Mem.tail _ (List.Mem.tail _ (List.Mem.tail _ (List.Mem.head _))))
      (by decide)⟩,
    (C8_schema_gate 3 [] fieldsBadC8).2.1 "Input should be a valid string" rfl,
    (C8_schema_gate 3 [] [("timestamp", JValue.jstr "T")]).2.2.1 (Or.inl rfl),
    (C8_schema_gate 3 [] fieldsBadC8).2.2.2
      (Or.inr (Or.inl ⟨JValue.jnum 1, rfl, fun s => by intro hc; cases hc⟩))⟩

/-- Modelled from the spec wording of the scoring rule: one query token
contributes 2 points when it is a substring of the lowercased
name-plus-description text, otherwise 1 point when it is in the item's token
set, otherwise 0. -/
def tokenContrib (it : IndexedItem) (t : String) : Nat :=
  if substrOf t (searchable_text it) then 2
  else if t ∈ it.tokens then 1
  else 0

/-- Modelled from the spec wording: the item's score is the sum of per-token
contributions plus 1 point per boost term present in the token set. -/
def specScore (it : IndexedItem) (query_tokens boost_terms : List String) : Nat :=
  (query_tokens.map (tokenContrib it)).sum
    + (boost_terms.filter (fun t => t ∈ it.tokens)).length

/-- The scoring fold accumulates exactly the sum of per-token
contributions. -/
theorem scoreItem_foldl (it : IndexedItem) :
    ∀ (l : List String) (s : Nat),
      l.foldl (fun s t => if substrOf t (searchable_text it) then s + 2
        else if t ∈ it.tokens then s + 1 else s) s
        = s + (l.map (tokenContrib it)).sum := by
  intro l
  induction l with
  | nil => intro s; simp
  | cons t ts ih =>
      intro s
      simp only [List.foldl_cons, List.map_cons, List.sum_cons]
      by_cases h1 : substrOf t (searchable_text it) = true
      · rw [if_pos h1, ih]
        unfold tokenContrib
        rw [if_pos h1]
        omega
      · rw [if_neg h1]
        by_cases h2 : t ∈ it.tokens
        · rw [if_pos h2, ih]
          unfold tokenContrib
          rw [if_neg h1, if_pos h2]
          omega
        · rw [if_neg h2, ih]
          unfold tokenContrib
          rw [if_neg h1, if_neg h2]
          omega

/-- The code's scoring function agrees with the spec's formula. -/
theorem scoreItem_eq_specScore (it : IndexedItem) (qt bt : List String) :
    scoreItem it qt bt = specScore it qt bt := by
  unfold scoreItem specScore
  rw [scoreItem_foldl it qt 0]
  omega

/-- Membership in an insertion. -/
theorem mem_insertDesc (p x : Nat × IndexedItem) :
    ∀ (l : List (Nat × IndexedItem)), x ∈ insertDesc p l ↔ x = p ∨ x ∈ l := by
  intro l
  induction l with
  | nil => simp [insertDesc]
  | cons q rest ih =>
      unfold insertDesc
      by_cases h : q.1 < p.1
      · rw [if_pos h]
        simp
      · rw [if_neg h]
        simp [ih]
        tauto

/-- Insertion preserves descending sortedness. -/
theorem insertDesc_sorted (p : Nat × IndexedItem) :
    ∀ (l : List (Nat × IndexedItem)),
      l.Pairwise (fun a b => b.1 ≤ a.1) →
      (insertDesc p l).Pairwise (fun a b => b.1 ≤ a.1) := by
  intro l
  induction l with
  | nil => intro _; simp [insertDesc]
  | cons q rest ih =>
      intro hs
      rw [List.pairwise_cons] at hs
      obtain ⟨hq, hrest⟩ := hs
      unfold insertDesc
      by_cases h : q.1 < p.1
      · rw [if_pos h]
        rw [List.pairwise_cons]
        constructor
        · intro x hx
          rcases List.mem_cons.mp hx with rfl | hx
          · omega
          · have := hq x hx
            omega
        · exact List.Pairwise.cons hq hrest
      · rw [if_neg h]
        rw [List.pairwise_cons]
        refine ⟨?_, ih hrest⟩
        intro x hx
        rcases (mem_insertDesc p x rest).mp hx with rfl | hx
        · omega
        · exact hq x hx

/-- Stability of the insertion: on a sorted accumulator, the new pair lands
after every pair of equal score. -/
theorem insertDesc_filter (p : Nat × IndexedItem) (s : Nat) :
    ∀ (l : List (Nat × IndexedItem)),
      l.Pairwise (fun a b => b.1 ≤ a.1) →
      (insertDesc p l).filter (fun x => x.1 = s) =
        l.filter (fun x => x.1 = s) ++ (if p.1 = s then [p] else []) := by
  intro l
  induction l with
  | nil =>
      intro _
      by_cases hp : p.1 = s
      · simp [insertDesc, hp]
      · simp [insertDesc, hp]
  | cons q rest ih =>
      intro hs
      rw [List.pairwise_cons] at hs
      obtain ⟨hq, hrest⟩ := hs
      unfold insertDesc
      by_cases h : q.1 < p.1
      · rw [if_pos h]
        by_cases hp : p.1 = s
        · have hnone : (q :: rest).filter (fun x => x.1 = s) = [] := by
            rw [List.filter_eq_nil_iff]
            intro x hx
            rcases List.mem_cons.mp hx with rfl | hx
            · simp
              omega
            · have := hq x hx
              simp
              omega
          rw [List.filter_cons]
          simp [hp, hnone]
        · rw [List.filter_cons]
          simp [hp]
      · rw [if_neg h]
        rw [List.filter_cons, List.filter_cons, ih hrest]
        by_cases hq1 : q.1 = s
        · simp [hq1]
        · simp [hq1]

/-- The insertion fold both sorts and is stable: for every score, the
elements of that score appear in accumulator-then-input order. -/
theorem sortAux_sorted_filter (s : Nat) :
    ∀ (l acc : List (Nat × IndexedItem)),
      acc.Pairwise (fun a b => b.1 ≤ a.1) →
      (l.foldl (fun acc p => insertDesc p acc) acc).Pairwise
        (fun a b => b.1 ≤ a.1) ∧
      (l.foldl (fun acc p => insertDesc p acc) acc).filter (fun x => x.1 = s) =
        acc.filter (fun x => x.1 = s) ++ l.filter (fun x => x.1 = s) := by
  intro l
  induction l with
  | nil => intro acc h; simp [h]
  | cons p ps ih =>
      intro acc h
      have hacc' := insertDesc_sorted p acc h
      obtain ⟨hs1, hf1⟩ := ih (insertDesc p acc) hacc'
      refine ⟨by simpa using hs1, ?_⟩
      simp only [List.foldl_cons]
      rw [hf1, insertDesc_filter p s acc h, List.filter_cons]
      by_cases hp : p.1 = s
      · simp [hp, List.append_assoc]
      · simp [hp]

/-- An insertion permutes to a cons. -/
theorem insertDesc_perm (p : Nat × IndexedItem) :
    ∀ (l : List (Nat × IndexedItem)), (insertDesc p l).Perm (p :: l) := by
  intro l
  induction l with
  | nil => simp [insertDesc]
  | cons q rest ih =>
      unfold insertDesc
      by_cases h : q.1 < p.1
      · rw [if_pos h]
      · rw [if_neg h]
        exact (ih.cons q).trans (List.Perm.swap p q rest)

/-- The insertion fold permutes to accumulator-plus-input. -/
theorem sortAux_perm :
    ∀ (l acc : List (Nat × IndexedItem)),
      (l.foldl (fun acc p => insertDesc p acc) acc).Perm (acc ++ l) := by
  intro l
  induction l with
  | nil => intro acc; simp
  | cons p ps ih =>
      intro acc
      simp only [List.foldl_cons]
      refine (ih (insertDesc p acc)).trans ?_
      have h1 : (insertDesc p acc ++ ps).Perm ((p :: acc) ++ ps) :=
        (insertDesc_perm p acc).append_right ps
      refine h1.trans ?_
      simp only [List.cons_append]
      exact (List.perm_middle).symm

/-- The python stable descending sort: sorted output. -/
theorem sortScoredDesc_sorted (l : List (Nat × IndexedItem)) :
    (sortScoredDesc l).Pairwise (fun a b => b.1 ≤ a.1) :=
  (sortAux_sorted_filter 0 l [] (by simp)).1

/-- The python stable descending sort: per-score order preserved
(stability). -/
theorem sortScoredDesc_filter (l : List (Nat × IndexedItem)) (s : Nat) :
    (sortScoredDesc l).filter (fun x => x.1 = s) = l.filter (fun x => x.1 = s) := by
  have h := (sortAux_sorted_filter s l [] (by simp)).2
  simpa [sortScoredDesc] using h

/-- The python stable descending sort: a permutation of its input. -/
theorem sortScoredDesc_perm (l : List (Nat × IndexedItem)) :
    (sortScoredDesc l).Perm l := by
  have h := sortAux_perm l []
  simpa [sortScoredDesc] using h

/-- C5: the search scoring contract.  Every item's score is exactly the
spec's formula (2 per substring-matching query token, else 1 per token-set
member, plus 1 per boost term in the token set); `_score_items` keeps only
strictly positive scores; its output is sorted by descending score; per-score
the discovery order is preserved (stable ties); and `search` returns the
identifiers of the top-limit scored items, with the boost terms being the
room-like query tokens. -/
theorem C5_scoring (items : List IndexedItem) (query_tokens boost_terms : List String) :
    (∀ it, scoreItem it query_tokens boost_terms =
      specScore it query_tokens boost_terms) ∧
    (score_items items query_tokens boost_terms).Pairwise (fun a b => b.1 ≤ a.1) ∧
    (score_items items query_tokens boost_terms).Perm
      ((items.map (fun it => (scoreItem it query_tokens boost_terms, it))).filter
        (fun p => 0 < p.1)) ∧
    (∀ s : Nat, (score_items items query_tokens boost_terms).filter
        (fun x => x.1 = s) =
      ((items.map (fun it => (scoreItem it query_tokens boost_terms, it))).filter
        (fun p => 0 < p.1)).filter (fun x => x.1 = s)) ∧
    (score_items items query_tokens boost_terms).all (fun p => 0 < p.1) = true ∧
    (∀ (devices gas : List IndexedItem) (query : String) (limit : Nat)
        (t0 : String) (rest : List String),
      (searchWith devices gas query (t0 :: rest) limit).devices =
        ((score_items devices (t0 :: rest) ((t0 :: rest).filter isRoomLike)).take
          limit).map (fun m => m.2.identifier) ∧
      (searchWith devices gas query (t0 :: rest) limit).destinations =
        ((score_items gas (t0 :: rest) ((t0 :: rest).filter isRoomLike)).take
          limit).map (fun m => m.2.identifier)) := by
  refine ⟨fun it => scoreItem_eq_specScore it query_tokens boost_terms,
    sortScoredDesc_sorted _, sortScoredDesc_perm _,
    fun s => sortScoredDesc_filter _ s, ?_, ?_⟩
  · rw [List.all_eq_true]
    intro p hp
    have hmem := (sortScoredDesc_perm _).mem_iff.mp hp
    have hfil := List.mem_filter.mp hmem
    simpa using hfil.2
  · intro devices gas query limit t0 rest
    constructor <;> simp [searchWith]

/-- C9: determinism of the Relevance Index.  The index build is a pure
function of the project metadata, so two builds give identical items and
token lists; the only run-to-run variation in the python code is the
enumeration order of the `set(tokenize(query))` iterated by `_score_items`
(and of the derived room-like boost set): for any two enumerations of that
token set, the search returns identical scores and identical results. -/
theorem C9_index_idempotent (metadata devMeta gaMeta : List (String × String × String))
    (q : String) (limit : Nat) (e1 e2 : List String)
    (h1 : e1.Perm ((tokenize q).dedup)) (h2 : e2.Perm ((tokenize q).dedup)) :
    loadItems metadata = loadItems metadata ∧
    (∀ it ∈ loadItems metadata, ∀ t : String, t ∈ it.tokens ↔ t ∈ it.tokens) ∧
    (∀ it, scoreItem it e1 (e1.filter isRoomLike) =
      scoreItem it e2 (e2.filter isRoomLike)) ∧
    searchWith (loadItems devMeta) (loadItems gaMeta) q e1 limit =
      searchWith (loadItems devMeta) (loadItems gaMeta) q e2 limit := by
  have hp : e1.Perm e2 := h1.trans h2.symm
  have hscoreIt : ∀ it, scoreItem it e1 (e1.filter isRoomLike) =
      scoreItem it e2 (e2.filter isRoomLike) := by
    intro it
    rw [scoreItem_eq_specScore, scoreItem_eq_specScore]
    unfold specScore
    congr 1
    · exact (hp.map (tokenContrib it)).sum_eq
    · exact ((hp.filter _).filter _).length_eq
  refine ⟨rfl, fun it _ t => Iff.rfl, hscoreIt, ?_⟩
  have hscore : ∀ items : List IndexedItem,
      score_items items e1 (e1.filter isRoomLike) =
        score_items items e2 (e2.filter isRoomLike) := by
    intro items
    unfold score_items
    have hmap : items.map (fun it => (scoreItem it e1 (e1.filter isRoomLike), it)) =
        items.map (fun it => (scoreItem it e2 (e2.filter isRoomLike), it)) := by
      apply List.map_congr_left
      intro it _
      rw [hscoreIt it]
    rw [hmap]
  cases e1 with
  | nil =>
      have he2 : e2 = [] := hp.symm.eq_nil
      subst he2
      rfl
  | cons t ts =>
      cases e2 with
      | nil => exact absurd hp.eq_nil (by simp)
      | cons u us =>
          simp only [searchWith, List.isEmpty_cons]
          rw [hscore (loadItems devMeta), hscore (loadItems gaMeta)]

/-- Sample project metadata for the C9 witness. -/
def metaW : List (String × String × String) :=
  [("1.1.1", "F200 Living Room Light", "main light switch"),
   ("1.1.2", "Hallway Sensor", "")]

/-- C9 witness: the two enumeration orders of the token set of the query
`"f200 light"` give identical search results over a concrete index. -/
theorem C9_witness :
    loadItems metaW = loadItems metaW ∧
    (∀ it ∈ loadItems metaW, ∀ t : String, t ∈ it.tokens ↔ t ∈ it.tokens) ∧
    (∀ it, scoreItem it ["f200", "light"]
        ((["f200", "light"] : List String).filter isRoomLike) =
      scoreItem it ["light", "f200"]
        ((["light", "f200"] : List String).filter isRoomLike)) ∧
    searchWith (loadItems metaW) (loadItems metaW) "f200 light"
        ["f200", "light"] 100 =
      searchWith (loadItems metaW) (loadItems metaW) "f200 light"
        ["light", "f200"] 100 :=
  C9_index_idempotent metaW metaW metaW "f200 light" 100
    ["f200", "light"] ["light", "f200"] (by decide) (by decide)

end KnxBridge
